import Mathlib

/-!
Verification of the asynchronous call engine of pingcap/grpc-rs.

The definitions below are a shallow embedding of the Rust sources:
  - src/async/promise.rs   (Batch, BatchType, resolution of batch jobs)
  - src/async/lock.rs      (the reentrant SpinLock and its guard)
  - src/call/mod.rs        (Call operations, ShareCall, StreamingBase,
                            WriteFlags, SinkBase)
  - src/call/server.rs     (RequestStream, the streaming sink close path)
  - src/task/executor.rs   (SpawnTask state machine)

Native gRPC handles (grpc_call, byte buffers, completion-queue tags) are
abstracted: message payloads are byte lists, and every native operation a
call submits is recorded explicitly as a `NativeOp` value, so theorems can
state which native operations an execution path issues.

The promise cell backing `CqFuture`/`Inner` lives in src/async/mod.rs,
which is not part of the provided sources; it is modelled from the spec
where noted.
-/

namespace GrpcRs

/-- gRPC status codes, as a code plus the distinguished `Ok` value.
Only the codes the engine itself produces are named; the rest are
represented by `other` with their numeric value. -/
inductive RpcStatusCode : Type
  | ok
  | cancelled
  | unknown
  | internal
  | unimplemented
  | other (code : Nat)
  deriving DecidableEq, Repr

/-- RPC result returned from the server (src/call/mod.rs, `RpcStatus`). -/
structure RpcStatus : Type where
  status : RpcStatusCode
  details : Option String
  deriving DecidableEq, Repr

/-- RpcStatus::ok(): a status whose code is Ok and that carries no detail. -/
def RpcStatus.ok : RpcStatus := ⟨RpcStatusCode.ok, none⟩

/-- Message payloads handled by the engine: opaque byte sequences. -/
abbrev Msg := List Nat

/-- The error taxonomy of the engine (src/error.rs is summarised by the
spec's section 7; only the variants the embedded code produces appear). -/
inductive Error : Type
  | remoteStopped
  | rpcFailure (status : RpcStatus)
  | rpcFinished (status : Option RpcStatus)
  | futureStale
  | queueShutdown
  | shutdownFailed
  deriving DecidableEq, Repr

/-- Result of polling a future: `futures 0.1`'s `Async`. -/
inductive Poll (α : Type) : Type
  | notReady
  | ready (a : α)
  deriving DecidableEq, Repr

/-- A `Poll<T, Error>` in the Rust sources is `Result<Async<T>, Error>`. -/
abbrev PollResult (α : Type) := Except Error (Poll α)

deriving instance DecidableEq for Except

/-- Modelled from the spec: the promise cell `Inner` of src/async/mod.rs
(not among the provided sources). A cell is pending until the poller thread
stores a result; the first poll after resolution consumes the result; any
later poll finds the cell consumed. -/
inductive PromiseState (α : Type) : Type
  | pending
  | ready (r : Except Error α)
  | consumed
  deriving DecidableEq, Repr

/-- Modelled from the spec: `Inner::set_result` of src/async/mod.rs (not
among the provided sources) stores the single resolution value into the
cell. -/
def set_result {α : Type} (_s : PromiseState α) (r : Except Error α) : PromiseState α :=
  PromiseState.ready r

/-- Modelled from the spec: `CqFuture::poll` of src/async/mod.rs (not among
the provided sources). Per the spec, each future resolves exactly once and
polling after resolution raises a distinguishable stale error instead of
hanging: a pending cell reports not-ready, a resolved cell hands out its
result exactly once, and a consumed cell reports the stale-future error. -/
def innerPoll {α : Type} : PromiseState α → PollResult α × PromiseState α
  | PromiseState.pending => (Except.ok Poll.notReady, PromiseState.pending)
  | PromiseState.ready (Except.ok a) => (Except.ok (Poll.ready a), PromiseState.consumed)
  | PromiseState.ready (Except.error e) => (Except.error e, PromiseState.consumed)
  | PromiseState.consumed => (Except.error Error.futureStale, PromiseState.consumed)

/-- The state a future is left in by one poll. -/
def pollNext {α : Type} (s : PromiseState α) : PromiseState α :=
  (innerPoll s).2

/-- Batch job type (src/async/promise.rs, `BatchType`). -/
inductive BatchType : Type
  | finish
  | read
  | checkRead
  deriving DecidableEq, Repr

/-- The observable part of a `BatchContext` (src/call/mod.rs): the status
the native layer wrote back and the received message, if any. -/
structure BatchContext : Type where
  statusCode : RpcStatusCode
  statusDetails : Option String
  recvMsg : Option Msg
  deriving DecidableEq, Repr

/-- BatchContext::rpc_status (src/call/mod.rs): the details string is
fetched only for non-Ok codes. -/
def BatchContext.rpc_status (c : BatchContext) : RpcStatus :=
  if c.statusCode = RpcStatusCode.ok then ⟨RpcStatusCode.ok, none⟩
  else ⟨c.statusCode, c.statusDetails⟩

/-- BatchContext::recv_message (src/call/mod.rs): `None` signals
end-of-stream, otherwise the payload is handed out. -/
def BatchContext.recv_message (c : BatchContext) : Option Msg :=
  c.recvMsg

/-- The message type batch promises carry: `BatchMessage` is
`Option<MessageReader>` in the sources. -/
abbrev BatchMessage := Option Msg

/-- Batch::read_one_msg (src/async/promise.rs): store the received message. -/
def Batch.read_one_msg (ctx : BatchContext) : Except Error BatchMessage :=
  Except.ok ctx.recv_message

/-- Batch::finish_response (src/async/promise.rs): a failed event resolves to
RemoteStopped, a non-Ok terminal status to RpcFailure, success to no payload. -/
def Batch.finish_response (ctx : BatchContext) (succeed : Bool) : Except Error BatchMessage :=
  if !succeed then Except.error Error.remoteStopped
  else if ctx.rpc_status.status ≠ RpcStatusCode.ok then
    Except.error (Error.rpcFailure ctx.rpc_status)
  else Except.ok none

/-- Batch::handle_unary_response (src/async/promise.rs): check the rpc code,
then extract the message. -/
def Batch.handle_unary_response (ctx : BatchContext) : Except Error BatchMessage :=
  if ctx.rpc_status.status ≠ RpcStatusCode.ok then
    Except.error (Error.rpcFailure ctx.rpc_status)
  else Except.ok ctx.recv_message

/-- Batch::resolve (src/async/promise.rs): the single resolution of a batch
promise, performed by the poller thread that received the tag back. The
Read and CheckRead arms assert `success` in the source; the embedding is
used with `success = true` for them. -/
def Batch.resolve (ty : BatchType) (ctx : BatchContext) (success : Bool)
    (inner : PromiseState BatchMessage) : PromiseState BatchMessage :=
  match ty with
  | BatchType.checkRead => set_result inner (Batch.handle_unary_response ctx)
  | BatchType.finish => set_result inner (Batch.finish_response ctx success)
  | BatchType.read => set_result inner (Batch.read_one_msg ctx)

/-- Modelled from the spec: the completion-queue handle of src/cq.rs (not
among the provided sources). Per the spec's error taxonomy, borrowing the
queue for a submission fails with the queue-shutdown error once the queue
has begun shutting down, and succeeds while it is open. -/
structure CompletionQueue : Type where
  shutdownStarted : Bool
  deriving DecidableEq, Repr

/-- CompletionQueue::borrow, as used by every operation of `Call`. -/
def CompletionQueue.borrow (cq : CompletionQueue) : Except Error Unit :=
  if cq.shutdownStarted then Except.error Error.queueShutdown else Except.ok ()

/-- A native batch operation submitted to the gRPC core. The embedding
records each submission explicitly so that theorems can state that a code
path issues, or does not issue, native work. -/
inductive NativeOp : Type
  | sendMessage (payload : Msg) (writeFlags : Nat) (initialMeta : Bool)
  | sendCloseClient
  | recvMessage
  | serverSide
  | sendStatusFromServer (status : RpcStatus) (sendEmptyMetadata : Bool)
      (payload : Option Msg) (writeFlags : Nat)
  | cancelCall
  deriving DecidableEq, Repr

/-- A Call (src/call/mod.rs): the native call handle is abstracted away;
only the completion queue the call is bound to is kept, since the embedded
operations consult nothing else. -/
structure Call : Type where
  cq : CompletionQueue
  deriving DecidableEq, Repr

/-- What starting a batch operation produces: the future for the pending
operation together with the submitted native operation. Each `start_*`
embedding mirrors `cq.borrow()?` followed by `check_run` (the native
submission itself is assumed to succeed; on failure the source panics). -/
abbrev StartResult := Except Error (PromiseState BatchMessage × NativeOp)

/-- Call::start_send_message (src/call/mod.rs). -/
def Call.start_send_message (c : Call) (msg : Msg) (write_flags : Nat)
    (initial_meta : Bool) : StartResult :=
  match c.cq.borrow with
  | Except.error e => Except.error e
  | Except.ok _ =>
      Except.ok (PromiseState.pending, NativeOp.sendMessage msg write_flags initial_meta)

/-- Call::start_send_close_client (src/call/mod.rs). -/
def Call.start_send_close_client (c : Call) : StartResult :=
  match c.cq.borrow with
  | Except.error e => Except.error e
  | Except.ok _ => Except.ok (PromiseState.pending, NativeOp.sendCloseClient)

/-- Call::start_recv_message (src/call/mod.rs). -/
def Call.start_recv_message (c : Call) : StartResult :=
  match c.cq.borrow with
  | Except.error e => Except.error e
  | Except.ok _ => Except.ok (PromiseState.pending, NativeOp.recvMessage)

/-- Call::start_server_side (src/call/mod.rs). -/
def Call.start_server_side (c : Call) : StartResult :=
  match c.cq.borrow with
  | Except.error e => Except.error e
  | Except.ok _ => Except.ok (PromiseState.pending, NativeOp.serverSide)

/-- Call::start_send_status_from_server (src/call/mod.rs). -/
def Call.start_send_status_from_server (c : Call) (status : RpcStatus)
    (send_empty_metadata : Bool) (payload : Option Msg) (write_flags : Nat) :
    StartResult :=
  match c.cq.borrow with
  | Except.error e => Except.error e
  | Except.ok _ =>
      Except.ok (PromiseState.pending,
        NativeOp.sendStatusFromServer status send_empty_metadata payload write_flags)

/-- Call::cancel (src/call/mod.rs): when the queue is shut down the
cancellation is silently dropped; otherwise the native cancel is issued.
The returned list holds the native operations performed. -/
def Call.cancel (c : Call) : List NativeOp :=
  match c.cq.borrow with
  | Except.error _ => []
  | Except.ok _ => [NativeOp.cancelCall]

/-- ShareCall (src/call/mod.rs): the call, the future tracking the call's
terminal close, the finished flag and the last known status. -/
structure ShareCall : Type where
  call : Call
  close_f : PromiseState BatchMessage
  finished : Bool
  status : Option RpcStatus
  deriving DecidableEq, Repr

/-- ShareCall::new (src/call/mod.rs). -/
def ShareCall.new (call : Call) (close_f : PromiseState BatchMessage) : ShareCall :=
  ⟨call, close_f, false, none⟩

/-- ShareCall::poll_finish (src/call/mod.rs): poll the terminal-close
future; an RPC-level failure records the carried status, a successful
resolution records an OK status, not-ready leaves the state alone, and any
other error marks the call finished without touching the recorded status. -/
def ShareCall.poll_finish (c : ShareCall) : PollResult BatchMessage × ShareCall :=
  let (r, f') := innerPoll c.close_f
  match r with
  | Except.error (Error.rpcFailure status) =>
      (Except.error (Error.rpcFailure status),
       { c with close_f := f', status := some status, finished := true })
  | Except.ok Poll.notReady => (Except.ok Poll.notReady, { c with close_f := f' })
  | Except.ok (Poll.ready msg) =>
      (Except.ok (Poll.ready msg),
       { c with close_f := f', status := some RpcStatus.ok, finished := true })
  | Except.error e => (Except.error e, { c with close_f := f', finished := true })

/-- Modelled from the spec: `async::check_alive` of src/async/mod.rs (not
among the provided sources). Per the spec, an operation eagerly detects
that the remote side disappeared when the call's terminal-close future has
already resolved; while it is still pending the call is alive. -/
def async.check_alive (f : PromiseState BatchMessage) : Except Error Unit :=
  match f with
  | PromiseState.pending => Except.ok ()
  | _ => Except.error Error.remoteStopped

/-- ShareCall::check_alive (src/call/mod.rs): once finished, fail with the
recorded terminal status; otherwise consult the close future. -/
def ShareCall.check_alive (c : ShareCall) : Except Error Unit :=
  if c.finished then Except.error (Error.rpcFinished c.status)
  else async.check_alive c.close_f

/-- The environment a read stream draws from: the results the native layer
will hand to successive receive-message operations, in order. An entry
`some m` is a buffered message, `none` is the end-of-stream marker. -/
abbrev RecvEnv := List (Option Msg)

/-- Issue a receive-message operation and let the poller resolve it with
the next buffered delivery, when one is buffered: the fresh future is
resolved through the Read arm of `Batch.resolve`, exactly as the poller
thread does; with nothing buffered yet the future stays pending. -/
def issueRecv (c : Call) (env : RecvEnv) :
    Except Error (PromiseState BatchMessage × RecvEnv × NativeOp) :=
  match c.start_recv_message with
  | Except.error e => Except.error e
  | Except.ok (f, op) =>
    match env with
    | d :: rest =>
        Except.ok (Batch.resolve BatchType.read ⟨RpcStatusCode.ok, none, d⟩ true f, rest, op)
    | [] => Except.ok (f, [], op)

/-- StreamingBase (src/call/mod.rs): the read-side state machine. -/
structure StreamingBase : Type where
  close_f : Option (PromiseState BatchMessage)
  msg_f : Option (PromiseState BatchMessage)
  read_done : Bool
  deriving DecidableEq, Repr

/-- StreamingBase::new (src/call/mod.rs). -/
def StreamingBase.new (close_f : Option (PromiseState BatchMessage)) : StreamingBase :=
  ⟨close_f, none, false⟩

/-- What one poll of the read-side state machine produces: the poll result,
the updated state, the remaining deliveries, and the native operations the
poll submitted. -/
structure StreamPollOut : Type where
  res : PollResult BatchMessage
  base : StreamingBase
  env : RecvEnv
  ops : List NativeOp
  deriving DecidableEq, Repr

/-- The message-reading part of StreamingBase::poll (src/call/mod.rs) for
a receive already in flight (`msg_f` holds `f`): poll it; on a message,
surface it and start the next receive; on end-of-stream mark read-done and
complete only when the close future is gone; once read-done, complete only
when the close future is gone. -/
def StreamingBase.pollFlight (call : Call) (b : StreamingBase)
    (f : PromiseState BatchMessage) (env : RecvEnv) : StreamPollOut :=
  if b.read_done then
    if b.close_f.isNone then ⟨Except.ok (Poll.ready none), b, env, []⟩
    else ⟨Except.ok Poll.notReady, b, env, []⟩
  else
    match innerPoll f with
    | (Except.ok Poll.notReady, f') =>
        ⟨Except.ok Poll.notReady, { b with msg_f := some f' }, env, []⟩
    | (Except.error e, f') => ⟨Except.error e, { b with msg_f := some f' }, env, []⟩
    | (Except.ok (Poll.ready none), f') =>
        let b' := { b with msg_f := some f', read_done := true }
        if b'.close_f.isNone then ⟨Except.ok (Poll.ready none), b', env, []⟩
        else ⟨Except.ok Poll.notReady, b', env, []⟩
    | (Except.ok (Poll.ready (some m)), _) =>
        match issueRecv call env with
        | Except.error e => ⟨Except.error e, { b with msg_f := none }, env, []⟩
        | Except.ok (nf, env', op) =>
            ⟨Except.ok (Poll.ready (some m)), { b with msg_f := some nf }, env', [op]⟩

/-- The message-reading part of StreamingBase::poll (src/call/mod.rs, the
code after the finish check). With no receive in flight and reading not
done, the source starts a receive and tail-calls itself with
`skip_finish_check = true`; that call finds the fresh receive in flight and
cannot reach the tail call again, so it is exactly `pollFlight` with the
submission recorded in front. -/
def StreamingBase.pollMsg (call : Call) (b : StreamingBase) (env : RecvEnv) : StreamPollOut :=
  match b.msg_f with
  | some f => StreamingBase.pollFlight call b f env
  | none =>
    if b.read_done then
      if b.close_f.isNone then ⟨Except.ok (Poll.ready none), b, env, []⟩
      else ⟨Except.ok Poll.notReady, b, env, []⟩
    else
      match issueRecv call env with
      | Except.error e => ⟨Except.error e, b, env, []⟩
      | Except.ok (nf, env', op) =>
        let out := StreamingBase.pollFlight call { b with msg_f := some nf } nf env'
        ⟨out.res, out.base, out.env, op :: out.ops⟩

/-- StreamingBase::poll (src/call/mod.rs): unless skipped, first check
whether the terminal-close future has resolved; if so remember it (drop
the close future) but keep reading, because a final message may still be
buffered; then run the message-reading part. -/
def StreamingBase.poll (call : Call) (b : StreamingBase) (env : RecvEnv)
    (skip_finish_check : Bool) : StreamPollOut :=
  if skip_finish_check then StreamingBase.pollMsg call b env
  else
    match b.close_f with
    | none => StreamingBase.pollMsg call b env
    | some cf =>
      match innerPoll cf with
      | (Except.ok (Poll.ready _), _) =>
          StreamingBase.pollMsg call { b with close_f := none } env
      | (Except.error e, cf') => ⟨Except.error e, { b with close_f := some cf' }, env, []⟩
      | (Except.ok Poll.notReady, cf') =>
          StreamingBase.pollMsg call { b with close_f := some cf' } env

/-- StreamingBase::on_drop (src/call/mod.rs): cancel the call if messages
may remain or the status was not received. -/
def StreamingBase.on_drop (call : Call) (b : StreamingBase) : List NativeOp :=
  if !b.read_done || b.close_f.isSome then Call.cancel call else []

/-- What one poll of a request stream produces. -/
structure RequestStreamPollOut : Type where
  res : PollResult BatchMessage
  callState : ShareCall
  base : StreamingBase
  env : RecvEnv
  ops : List NativeOp
  deriving DecidableEq, Repr

/-- RequestStream::poll (src/call/server.rs): check the shared call is
alive, then drive the read-side state machine and deserialize any surfaced
message with `de`. -/
def RequestStream.poll (de : Msg → Except Error Msg) (c : ShareCall)
    (b : StreamingBase) (env : RecvEnv) : RequestStreamPollOut :=
  match c.check_alive with
  | Except.error e => ⟨Except.error e, c, b, env, []⟩
  | Except.ok _ =>
    let out := StreamingBase.poll c.call b env false
    match out.res with
    | Except.error e => ⟨Except.error e, c, out.base, out.env, out.ops⟩
    | Except.ok Poll.notReady => ⟨Except.ok Poll.notReady, c, out.base, out.env, out.ops⟩
    | Except.ok (Poll.ready none) =>
        ⟨Except.ok (Poll.ready none), c, out.base, out.env, out.ops⟩
    | Except.ok (Poll.ready (some data)) =>
      match de data with
      | Except.error e => ⟨Except.error e, c, out.base, out.env, out.ops⟩
      | Except.ok msg => ⟨Except.ok (Poll.ready (some msg)), c, out.base, out.env, out.ops⟩

/-- GRPC_WRITE_BUFFER_HINT of the native layer: bit 0 of the write flags. -/
def GRPC_WRITE_BUFFER_HINT : Nat := 1

/-- GRPC_WRITE_NO_COMPRESS of the native layer: bit 1 of the write flags. -/
def GRPC_WRITE_NO_COMPRESS : Nat := 2

/-- All 32 bits of a native u32 flag word. -/
def U32_MASK : Nat := 4294967295

/-- Modelled from the spec: `client::change_flag` of src/call/client.rs (not
among the provided sources), as used by WriteFlags: set the given flag bit,
or clear it, in a u32 flag word. -/
def client.change_flag (dst : Nat) (flag : Nat) (set : Bool) : Nat :=
  if set then dst ||| flag else dst &&& (U32_MASK ^^^ flag)

/-- WriteFlags (src/call/mod.rs): flags for write operations, kept as the
native u32 bit set. -/
structure WriteFlags : Type where
  flags : Nat
  deriving DecidableEq, Repr

/-- WriteFlags::buffer_hint (src/call/mod.rs). -/
def WriteFlags.buffer_hint (w : WriteFlags) (need_buffered : Bool) : WriteFlags :=
  ⟨client.change_flag w.flags GRPC_WRITE_BUFFER_HINT need_buffered⟩

/-- WriteFlags::force_no_compress (src/call/mod.rs). -/
def WriteFlags.force_no_compress (w : WriteFlags) (no_compress : Bool) : WriteFlags :=
  ⟨client.change_flag w.flags GRPC_WRITE_NO_COMPRESS no_compress⟩

/-- WriteFlags::get_buffer_hint (src/call/mod.rs). -/
def WriteFlags.get_buffer_hint (w : WriteFlags) : Bool :=
  w.flags &&& GRPC_WRITE_BUFFER_HINT != 0

/-- WriteFlags::get_force_no_compress (src/call/mod.rs). -/
def WriteFlags.get_force_no_compress (w : WriteFlags) : Bool :=
  w.flags &&& GRPC_WRITE_NO_COMPRESS != 0

/-- SinkBase (src/call/mod.rs): the write-side state machine, with its
reusable serialization buffer aside the at-most-one in-flight write. -/
structure SinkBase : Type where
  batch_f : Option (PromiseState BatchMessage)
  buf : Msg
  send_metadata : Bool
  deriving DecidableEq, Repr

/-- SinkBase::new (src/call/mod.rs). -/
def SinkBase.new (send_metadata : Bool) : SinkBase :=
  ⟨none, [], send_metadata⟩

/-- SinkBase::poll_complete (src/call/mod.rs): poll the in-flight write, if
any; once it resolves, clear it and report ready. -/
def SinkBase.poll_complete (s : SinkBase) : PollResult Unit × SinkBase :=
  match s.batch_f with
  | some f =>
    match innerPoll f with
    | (Except.ok Poll.notReady, f') => (Except.ok Poll.notReady, { s with batch_f := some f' })
    | (Except.error e, f') => (Except.error e, { s with batch_f := some f' })
    | (Except.ok (Poll.ready _), _) => (Except.ok (Poll.ready ()), { s with batch_f := none })
  | none => (Except.ok (Poll.ready ()), { s with batch_f := none })

/-- What SinkBase::start_send produces: `Ok(true)` when the item was
serialized and submitted, `Ok(false)` when a previous write is still
outstanding, plus the updated sink and the submitted native operations. -/
structure SinkSendOut : Type where
  res : Except Error Bool
  sink : SinkBase
  ops : List NativeOp
  deriving DecidableEq, Repr

/-- SinkBase::start_send (src/call/mod.rs): try to complete any outstanding
write first and refuse (Ok(false)) while one remains; otherwise serialize
the item into the buffer — clearing the buffer hint when initial metadata
still rides along with this first message — and submit the send. -/
def SinkBase.start_send (call : Call) (s : SinkBase) (t : Msg) (flags : WriteFlags)
    (ser : Msg → Msg) : SinkSendOut :=
  let sendNow : SinkBase → SinkSendOut := fun s1 =>
    let buf' := ser t
    let flags' :=
      if flags.get_buffer_hint && s1.send_metadata then flags.buffer_hint false else flags
    match Call.start_send_message call buf' flags'.flags s1.send_metadata with
    | Except.error e => ⟨Except.error e, { s1 with buf := buf' }, []⟩
    | Except.ok (f, op) =>
        ⟨Except.ok true, { s1 with buf := buf', batch_f := some f, send_metadata := false }, [op]⟩
  if s.batch_f.isSome then
    match s.poll_complete with
    | (Except.error e, s1) => ⟨Except.error e, s1, []⟩
    | (_, s1) =>
      if s1.batch_f.isSome then ⟨Except.ok false, s1, []⟩
      else sendNow s1
  else sendNow s

/-- What the server streaming sink's start_send produces: `none` for
AsyncSink::Ready, `some item` for AsyncSink::NotReady(item). -/
structure DuplexSendOut : Type where
  res : Except Error (Option (Msg × WriteFlags))
  callState : ShareCall
  sink : SinkBase
  ops : List NativeOp
  deriving DecidableEq, Repr

/-- The start_send of the server streaming sinks (src/call/server.rs,
impl_stream_sink): fail if the call is done, otherwise hand the item to
SinkBase, mapping its boolean to AsyncSink readiness. -/
def DuplexSink.start_send (c : ShareCall) (s : SinkBase) (item : Msg × WriteFlags)
    (ser : Msg → Msg) : DuplexSendOut :=
  let (r, c') := c.poll_finish
  match r with
  | Except.error e => ⟨Except.error e, c', s, []⟩
  | Except.ok (Poll.ready _) => ⟨Except.error Error.remoteStopped, c', s, []⟩
  | Except.ok Poll.notReady =>
    let out := SinkBase.start_send c'.call s item.1 item.2 ser
    match out.res with
    | Except.error e => ⟨Except.error e, c', out.sink, out.ops⟩
    | Except.ok true => ⟨Except.ok none, c', out.sink, out.ops⟩
    | Except.ok false => ⟨Except.ok (some item), c', out.sink, out.ops⟩

/-- The state of a server streaming sink (src/call/server.rs,
impl_stream_sink): the write-side base, the terminal-status future once
issued, the status to send, and whether the terminal operation resolved. -/
structure StreamSink : Type where
  base : SinkBase
  flush_f : Option (PromiseState BatchMessage)
  status : RpcStatus
  flushed : Bool
  deriving DecidableEq, Repr

/-- What one call of the sink's close produces: besides the poll result,
updated states and submitted operations, `polledFinish` records whether
this call reached the final wait on the call's terminal-close future. -/
structure CloseOut : Type where
  res : PollResult Unit
  callState : ShareCall
  sink : StreamSink
  ops : List NativeOp
  polledFinish : Bool
  deriving DecidableEq, Repr

/-- The tail of close (src/call/server.rs): wait for the call's
terminal-close future. -/
def StreamSink.finishCheck (c : ShareCall) (ss : StreamSink) (ops : List NativeOp) : CloseOut :=
  let (r, c') := c.poll_finish
  match r with
  | Except.error e => ⟨Except.error e, c', ss, ops, true⟩
  | Except.ok Poll.notReady => ⟨Except.ok Poll.notReady, c', ss, ops, true⟩
  | Except.ok (Poll.ready _) => ⟨Except.ok (Poll.ready ()), c', ss, ops, true⟩

/-- The part of close after the terminal operation exists
(src/call/server.rs): wait for it to resolve, then wait for the call's
terminal-close future. `f` is the current terminal-operation future. -/
def StreamSink.closeRest (c : ShareCall) (ss : StreamSink) (f : PromiseState BatchMessage)
    (ops : List NativeOp) : CloseOut :=
  if ss.flushed then StreamSink.finishCheck c ss ops
  else
    match innerPoll f with
    | (Except.ok Poll.notReady, f') =>
        ⟨Except.ok Poll.notReady, c, { ss with flush_f := some f' }, ops, false⟩
    | (Except.error e, f') => ⟨Except.error e, c, { ss with flush_f := some f' }, ops, false⟩
    | (Except.ok (Poll.ready _), f') =>
        StreamSink.finishCheck c { ss with flush_f := some f', flushed := true } ops

/-- close of the server streaming sinks (src/call/server.rs,
impl_stream_sink): drain any outstanding write, then issue the terminal
send-status operation, wait for it, and only then wait for the call's
terminal-close future. -/
def StreamSink.close (c : ShareCall) (ss : StreamSink) : CloseOut :=
  match ss.flush_f with
  | none =>
    match SinkBase.poll_complete ss.base with
    | (Except.error e, b') => ⟨Except.error e, c, { ss with base := b' }, [], false⟩
    | (Except.ok Poll.notReady, b') =>
        ⟨Except.ok Poll.notReady, c, { ss with base := b' }, [], false⟩
    | (Except.ok (Poll.ready _), b') =>
      match Call.start_send_status_from_server c.call ss.status b'.send_metadata none 0 with
      | Except.error e => ⟨Except.error e, c, { ss with base := b' }, [], false⟩
      | Except.ok (f, op) =>
          StreamSink.closeRest c { ss with base := b', flush_f := some f } f [op]
  | some f => StreamSink.closeRest c ss f []

/-- Whether a native operation is the terminal send-status operation. -/
def NativeOp.isSendStatus : NativeOp → Bool
  | NativeOp.sendStatusFromServer _ _ _ _ => true
  | _ => false

/-- Thread identifiers, abstracted to naturals. -/
abbrev ThreadId := Nat

/-- Ownership (src/async/lock.rs): the thread holding the reentrant lock
and how many nested guards it holds. -/
structure Ownership : Type where
  owner : ThreadId
  holders : Nat
  deriving DecidableEq, Repr

/-- The logical state guarded by the SpinLock's atomic flag
(src/async/lock.rs): the ownership record, or none when free. The
protected value itself is not represented; availability is what the
ownership record decides. -/
structure LockState : Type where
  ownership : Option Ownership
  deriving DecidableEq, Repr

/-- One round of the acquisition loop of SpinLock::lock (src/async/lock.rs),
run by thread `t` with the atomic flag held: a free lock is taken with one
holder, a lock already owned by `t` is re-entered by bumping the holder
count, and a lock owned by another thread yields `none` — the caller spins
and tries again, i.e. it blocks for now. -/
def SpinLock.lock_once (s : LockState) (t : ThreadId) : Option LockState :=
  match s.ownership with
  | none => some ⟨some ⟨t, 1⟩⟩
  | some o =>
    if o.owner = t then some ⟨some ⟨o.owner, o.holders + 1⟩⟩
    else none

/-- LockGuard::drop (src/async/lock.rs): decrement the holder count and
clear the ownership record when it reaches zero. Dropping a guard of an
unowned lock cannot happen (the source unwraps); the total function leaves
the free state free. -/
def LockGuard.drop (s : LockState) : LockState :=
  match s.ownership with
  | some o => if o.holders - 1 = 0 then ⟨none⟩ else ⟨some ⟨o.owner, o.holders - 1⟩⟩
  | none => ⟨none⟩

/-- The four states of a spawned task (src/task/executor.rs: NOTIFIED,
IDLE, POLLING, COMPLETED). -/
inductive TaskState : Type
  | notified
  | idle
  | polling
  | completed
  deriving DecidableEq, Repr

/-- SpawnTask::mark_notified (src/task/executor.rs), with the CAS loop
resolved to its stable outcome: an idle task becomes notified and reports
true (the caller must schedule a poll); a polling task becomes notified
but reports false (the in-progress poll loop will re-poll); a task already
notified or completed is left alone and reports false. -/
def SpawnTask.mark_notified : TaskState → Bool × TaskState
  | TaskState.idle => (true, TaskState.notified)
  | TaskState.polling => (false, TaskState.notified)
  | TaskState.notified => (false, TaskState.notified)
  | TaskState.completed => (false, TaskState.completed)

/-- The executor's global state for one spawned task: the task's atomic
state, how many threads are inside the task's poll loop, and how many
deferred poll requests (work-queue entries or kicked tags) are pending. -/
structure ExecState : Type where
  task : TaskState
  activePolls : Nat
  scheduled : Nat
  deriving DecidableEq, Repr

/-- Notify for WorkQueue (src/task/executor.rs): run mark_notified; only
when it reports true is a deferred poll scheduled (pushed to the work
queue or kicked into the completion queue). -/
def notifyStep (s : ExecState) : ExecState :=
  match SpawnTask.mark_notified s.task with
  | (true, t') => { s with task := t', scheduled := s.scheduled + 1 }
  | (false, t') => { s with task := t' }

/-- The transitions of the executor around one spawned task
(src/task/executor.rs). `wakeup` is a task.notify() from anywhere;
`spawnPoll` is Executor::spawn's inline first poll (CAS IDLE→POLLING);
`beginScheduled` consumes a deferred poll request and enters the poll loop
(resolve(): CAS NOTIFIED→POLLING); `dropScheduled` is the same entry
finding the task completed; `finishReady` stores COMPLETED after the
future resolved; `finishNotReady` is the successful CAS POLLING→IDLE; and
`observeNotifiedRepoll` is the loop observing that the CAS failed with
NOTIFIED and re-polling by itself (CAS NOTIFIED→POLLING), consuming no
scheduled entry and adding no second poll loop. -/
inductive ExecStep : ExecState → ExecState → Prop
  | wakeup (s : ExecState) : ExecStep s (notifyStep s)
  | spawnPoll (s : ExecState) : s.task = TaskState.idle → s.activePolls = 0 →
      ExecStep s { s with task := TaskState.polling, activePolls := 1 }
  | beginScheduled (s : ExecState) : 1 ≤ s.scheduled → s.task = TaskState.notified →
      ExecStep s { s with task := TaskState.polling,
                          activePolls := s.activePolls + 1,
                          scheduled := s.scheduled - 1 }
  | dropScheduled (s : ExecState) : 1 ≤ s.scheduled → s.task = TaskState.completed →
      ExecStep s { s with scheduled := s.scheduled - 1 }
  | finishReady (s : ExecState) : s.task = TaskState.polling → 1 ≤ s.activePolls →
      ExecStep s { s with task := TaskState.completed, activePolls := s.activePolls - 1 }
  | finishNotReady (s : ExecState) : s.task = TaskState.polling → 1 ≤ s.activePolls →
      ExecStep s { s with task := TaskState.idle, activePolls := s.activePolls - 1 }
  | observeNotifiedRepoll (s : ExecState) : s.task = TaskState.notified →
      1 ≤ s.activePolls → ExecStep s { s with task := TaskState.polling }

/-- The executor states reachable for one spawned task, from the freshly
created SpawnTask (state IDLE, nothing polling, nothing scheduled). -/
inductive ExecReachable : ExecState → Prop
  | init : ExecReachable ⟨TaskState.idle, 0, 0⟩
  | step {s t : ExecState} : ExecReachable s → ExecStep s t → ExecReachable t

/-- The inductive invariant of the executor's state machine: at most one
poll loop is active, at most one deferred poll is pending, a deferred poll
exists only for a notified task with no active poll loop, a polling task
has exactly one active loop, and an idle or completed task has none. -/
def ExecInv (s : ExecState) : Prop :=
  s.activePolls ≤ 1 ∧ s.scheduled ≤ 1 ∧
  (s.scheduled = 1 → s.activePolls = 0 ∧ s.task = TaskState.notified) ∧
  (s.task = TaskState.polling → s.activePolls = 1) ∧
  (s.task = TaskState.idle → s.activePolls = 0 ∧ s.scheduled = 0) ∧
  (s.task = TaskState.completed → s.activePolls = 0)

/-! Claim theorems. -/

/-- Claim C1: for every batch operation, the returned future resolves
exactly once: `Batch.resolve` stores the one result, the first poll hands
it out and consumes the cell, and every later poll yields exactly the
stale-future error — it neither reports not-ready (so it never hangs) nor
hands out a value again (so it never yields stale data). -/
theorem batch_future_resolves_exactly_once (ty : BatchType) (ctx : BatchContext)
    (success : Bool) (inner : PromiseState BatchMessage) :
    (∃ r, Batch.resolve ty ctx success inner = PromiseState.ready r) ∧
    pollNext (Batch.resolve ty ctx success inner) = PromiseState.consumed ∧
    ∀ n : Nat,
      innerPoll (pollNext^[n] (pollNext (Batch.resolve ty ctx success inner)))
        = (Except.error Error.futureStale, PromiseState.consumed) := by
  have hr : ∃ r, Batch.resolve ty ctx success inner = PromiseState.ready r := by
    cases ty <;> exact ⟨_, rfl⟩
  obtain ⟨r, hres⟩ := hr
  have hcons : pollNext (Batch.resolve ty ctx success inner) = PromiseState.consumed := by
    rw [hres]; cases r <;> rfl
  refine ⟨⟨r, hres⟩, hcons, fun n => ?_⟩
  rw [hcons,
    Function.iterate_fixed
      (show pollNext (PromiseState.consumed : PromiseState BatchMessage)
          = PromiseState.consumed from rfl) n]
  rfl

/-- The transition table ShareCall::poll_finish realizes, row by row over
the state of the terminal-close future: pending leaves the call untouched;
a successful resolution records the OK status; an RPC-level failure records
the carried status; any other failure of the close future — a transport
failure such as RemoteStopped, or a stale re-poll — marks the call finished
but leaves the recorded status as it was. -/
def pollFinishSpec (c : ShareCall) : PollResult BatchMessage × ShareCall :=
  match c.close_f with
  | PromiseState.pending => (Except.ok Poll.notReady, c)
  | PromiseState.ready (Except.ok m) =>
      (Except.ok (Poll.ready m),
       { c with close_f := PromiseState.consumed, finished := true,
                status := some RpcStatus.ok })
  | PromiseState.ready (Except.error (Error.rpcFailure st)) =>
      (Except.error (Error.rpcFailure st),
       { c with close_f := PromiseState.consumed, finished := true, status := some st })
  | PromiseState.ready (Except.error e) =>
      (Except.error e,
       { c with close_f := PromiseState.consumed, finished := true })
  | PromiseState.consumed =>
      (Except.error Error.futureStale,
       { c with close_f := PromiseState.consumed, finished := true })

/-- Claim C3 (amended): ShareCall moves from Active to Finished exactly when
its terminal-close future resolves; success records an OK status and an
RPC-level failure records the carried status, but a transport failure marks
the call Finished without recording any status (the recorded status is left
unchanged, i.e. stays empty). -/
theorem poll_finish_transition_table (c : ShareCall) :
    c.poll_finish = pollFinishSpec c := by
  obtain ⟨cc, cf, fin, st⟩ := c
  cases cf with
  | pending => rfl
  | consumed => rfl
  | ready r =>
    cases r with
    | ok m => rfl
    | error e => cases e <;> rfl

/-- Claim C3, counterexample to the claim as stated: when the terminal-close
future resolves with a transport failure (RemoteStopped), poll_finish marks
the call Finished but records no status at all — no synthetic error status
is stored. -/
theorem poll_finish_transport_failure_records_no_status :
    (ShareCall.poll_finish
        ⟨⟨⟨false⟩⟩, PromiseState.ready (Except.error Error.remoteStopped), false, none⟩).2.finished
      = true ∧
    (ShareCall.poll_finish
        ⟨⟨⟨false⟩⟩, PromiseState.ready (Except.error Error.remoteStopped), false, none⟩).2.status
      = none := by
  exact ⟨rfl, rfl⟩

/-- Claim C8 (amended): when the call's completion queue has begun shutdown,
every start-* operation drops the pending submission — no native operation
is created — but it surfaces the queue-shutdown error to the caller; only
cancel (and abort) swallow the shutdown silently. -/
theorem queue_shutdown_submission_behavior (c : Call)
    (h : c.cq.shutdownStarted = true) :
    (∀ msg fl im, c.start_send_message msg fl im = Except.error Error.queueShutdown) ∧
    c.start_send_close_client = Except.error Error.queueShutdown ∧
    c.start_recv_message = Except.error Error.queueShutdown ∧
    c.start_server_side = Except.error Error.queueShutdown ∧
    (∀ st sem p fl,
      c.start_send_status_from_server st sem p fl = Except.error Error.queueShutdown) ∧
    c.cancel = [] := by
  refine ⟨fun msg fl im => ?_, ?_, ?_, ?_, fun st sem p fl => ?_, ?_⟩ <;>
    simp [Call.start_send_message, Call.start_send_close_client, Call.start_recv_message,
          Call.start_server_side, Call.start_send_status_from_server, Call.cancel,
          CompletionQueue.borrow, h]

/-- Claim C8, witness: the amended behavior at a concrete shut-down queue. -/
theorem queue_shutdown_submission_behavior_witness :
    Call.start_recv_message ⟨⟨true⟩⟩ = Except.error Error.queueShutdown ∧
    Call.cancel ⟨⟨true⟩⟩ = [] :=
  ⟨(queue_shutdown_submission_behavior ⟨⟨true⟩⟩ rfl).2.2.1,
   (queue_shutdown_submission_behavior ⟨⟨true⟩⟩ rfl).2.2.2.2.2⟩

/-- Claim C8, counterexample to the claim as stated: on a shut-down queue a
start-* operation does not drop the submission quietly — it returns the
queue-shutdown error to the caller, an error result rather than a
success. -/
theorem start_send_message_surfaces_queue_shutdown :
    Call.start_send_message ⟨⟨true⟩⟩ [] 0 false = Except.error Error.queueShutdown ∧
    (Call.start_send_message ⟨⟨true⟩⟩ [] 0 false).isOk = false := by
  exact ⟨rfl, rfl⟩

/-- Iterating guard drops on a lock held `m` times by thread `t` keeps the
lock owned by `t` with the holder count reduced, as long as fewer than `m`
drops have happened. -/
theorem drop_iterate_held (t : ThreadId) :
    ∀ k m, k < m → LockGuard.drop^[k] ⟨some ⟨t, m⟩⟩ = ⟨some ⟨t, m - k⟩⟩ := by
  intro k
  induction k with
  | zero => intro m _; simp
  | succ k ih =>
    intro m hm
    rw [Function.iterate_succ_apply]
    have hm1 : ¬(m - 1 = 0) := by omega
    rw [show LockGuard.drop ⟨some ⟨t, m⟩⟩ = ⟨some ⟨t, m - 1⟩⟩ from by
      simp [LockGuard.drop, hm1]]
    rw [ih (m - 1) (by omega)]
    have : m - 1 - k = m - (k + 1) := by omega
    rw [this]

/-- Claim C9: the lock protecting ShareCall is reentrant per owning thread.
With thread `t` holding the lock (n + 1 nested holds): `t` reacquires it
without blocking, bumping the holder count; any other thread's acquisition
attempt spins (yields none) at every point until the outermost release; the
(n + 1)-st release clears ownership; and only then can another thread take
the lock. -/
theorem reentrant_lock_protocol (t t' : ThreadId) (n : Nat) :
    SpinLock.lock_once ⟨some ⟨t, n + 1⟩⟩ t = some ⟨some ⟨t, n + 2⟩⟩ ∧
    (t' ≠ t → SpinLock.lock_once ⟨some ⟨t, n + 1⟩⟩ t' = none) ∧
    (∀ k, k ≤ n → LockGuard.drop^[k] ⟨some ⟨t, n + 1⟩⟩ = ⟨some ⟨t, n + 1 - k⟩⟩) ∧
    LockGuard.drop^[n + 1] ⟨some ⟨t, n + 1⟩⟩ = ⟨none⟩ ∧
    (∀ k, k ≤ n → t' ≠ t →
      SpinLock.lock_once (LockGuard.drop^[k] ⟨some ⟨t, n + 1⟩⟩) t' = none) ∧
    SpinLock.lock_once (LockGuard.drop^[n + 1] ⟨some ⟨t, n + 1⟩⟩) t'
      = some ⟨some ⟨t', 1⟩⟩ := by
  have hfull : LockGuard.drop^[n + 1] ⟨some ⟨t, n + 1⟩⟩ = ⟨none⟩ := by
    rw [Function.iterate_succ_apply', drop_iterate_held t n (n + 1) (by omega)]
    simp [LockGuard.drop]
  refine ⟨?_, fun hne => ?_, fun k hk => drop_iterate_held t k (n + 1) (by omega),
    hfull, fun k hk hne => ?_, ?_⟩
  · simp [SpinLock.lock_once]
  · simp [SpinLock.lock_once, Ne.symm hne]
  · rw [drop_iterate_held t k (n + 1) (by omega)]
    simp [SpinLock.lock_once, Ne.symm hne]
  · rw [hfull]
    simp [SpinLock.lock_once]

/-- Claim C2 (amended): once a ShareCall is Finished, every read or write
attempt fails immediately and issues no native operation. A read attempt
(RequestStream::poll) fails with the RpcFinished error carrying the
recorded terminal status and leaves all state untouched; a write attempt
through the server streaming sink also fails immediately without native
work, but through poll_finish re-polling the consumed close future, so its
error is the stale-future error, which does not carry the recorded
status. -/
theorem finished_share_call_fails_fast (de : Msg → Except Error Msg) (c : ShareCall)
    (b : StreamingBase) (env : RecvEnv) (s : SinkBase) (item : Msg × WriteFlags)
    (ser : Msg → Msg) :
    (c.finished = true →
      RequestStream.poll de c b env
        = ⟨Except.error (Error.rpcFinished c.status), c, b, env, []⟩) ∧
    (c.finished = true → c.close_f = PromiseState.consumed →
      DuplexSink.start_send c s item ser = ⟨Except.error Error.futureStale, c, s, []⟩) := by
  constructor
  · intro h
    simp [RequestStream.poll, ShareCall.check_alive, h]
  · intro h hc
    have hpf : c.poll_finish = (Except.error Error.futureStale, c) := by
      obtain ⟨cc, cf, fin, st⟩ := c
      simp only at h hc
      subst h
      subst hc
      rfl
    simp [DuplexSink.start_send, hpf]

/-- Claim C2, counterexample to the claim as stated: drive a ShareCall to
Finished by resolving its terminal-close future successfully; the recorded
status is OK, yet a write attempt through the server streaming sink fails
with the stale-future error — an error that does not carry the recorded
terminal status (though it does fail immediately and issues no native
operation). -/
theorem finished_write_attempt_error_lacks_status :
    (ShareCall.poll_finish
        ⟨⟨⟨false⟩⟩, PromiseState.ready (Except.ok none), false, none⟩).2.finished = true ∧
    (ShareCall.poll_finish
        ⟨⟨⟨false⟩⟩, PromiseState.ready (Except.ok none), false, none⟩).2.status
      = some RpcStatus.ok ∧
    (DuplexSink.start_send
        (ShareCall.poll_finish
          ⟨⟨⟨false⟩⟩, PromiseState.ready (Except.ok none), false, none⟩).2
        (SinkBase.new true) ([], ⟨0⟩) id).res = Except.error Error.futureStale ∧
    (DuplexSink.start_send
        (ShareCall.poll_finish
          ⟨⟨⟨false⟩⟩, PromiseState.ready (Except.ok none), false, none⟩).2
        (SinkBase.new true) ([], ⟨0⟩) id).ops = ([] : List NativeOp) ∧
    Error.futureStale
      ≠ Error.rpcFinished
          (ShareCall.poll_finish
            ⟨⟨⟨false⟩⟩, PromiseState.ready (Except.ok none), false, none⟩).2.status := by
  refine ⟨rfl, rfl, rfl, rfl, by decide⟩

/-- Claim C7: the write sink keeps at most one in-flight write.
start_send reports not-ready (Ok(false)) exactly when, after attempting to
complete it, the previously submitted write is still outstanding, and in
that case it serializes nothing and submits nothing; it reports Ok(true)
— submitting exactly one fresh send-message operation for the serialized
item — only when there was no previous write or the previous write had
completed. -/
theorem sink_single_inflight_write (call : Call) (s : SinkBase) (t : Msg)
    (flags : WriteFlags) (ser : Msg → Msg) :
    ((SinkBase.start_send call s t flags ser).res = Except.ok false ↔
       s.batch_f = some PromiseState.pending) ∧
    ((SinkBase.start_send call s t flags ser).res = Except.ok false →
       (SinkBase.start_send call s t flags ser).ops = [] ∧
       (SinkBase.start_send call s t flags ser).sink.buf = s.buf ∧
       (SinkBase.start_send call s t flags ser).sink.batch_f = some PromiseState.pending) ∧
    ((SinkBase.start_send call s t flags ser).res = Except.ok true →
       (s.batch_f = none ∨
         ∃ f r, s.batch_f = some f ∧ (innerPoll f).1 = Except.ok (Poll.ready r)) ∧
       (SinkBase.start_send call s t flags ser).sink.batch_f = some PromiseState.pending ∧
       (SinkBase.start_send call s t flags ser).sink.buf = ser t ∧
       ∃ fl, (SinkBase.start_send call s t flags ser).ops
               = [NativeOp.sendMessage (ser t) fl s.send_metadata]) := by
  rcases hb : s.batch_f with _ | f
  · cases hcq : call.cq.shutdownStarted <;>
      simp [SinkBase.start_send, SinkBase.poll_complete, innerPoll,
            Call.start_send_message, CompletionQueue.borrow, hb, hcq]
  · cases f with
    | pending =>
      simp [SinkBase.start_send, SinkBase.poll_complete, innerPoll, hb]
    | consumed =>
      simp [SinkBase.start_send, SinkBase.poll_complete, innerPoll, hb]
    | ready r =>
      cases r with
      | ok a =>
        cases hcq : call.cq.shutdownStarted <;>
          simp [SinkBase.start_send, SinkBase.poll_complete, innerPoll,
                Call.start_send_message, CompletionQueue.borrow, hb, hcq]
      | error e =>
        simp [SinkBase.start_send, SinkBase.poll_complete, innerPoll, hb]

/-- Whether a native operation avoids the buffer hint: true for any
send-message whose flag word has the buffer-hint bit clear, and for every
other operation. -/
def NativeOp.bufferHintClear : NativeOp → Bool
  | NativeOp.sendMessage _ fl _ => fl &&& GRPC_WRITE_BUFFER_HINT == 0
  | _ => true

/-- Claim C10: while the sink still has initial metadata to send
(send_metadata is true), any send-message operation start_send submits has
the buffer hint cleared, whatever flags the caller passed: the first
message of such a sink is never submitted with the buffer hint. -/
theorem first_send_never_buffer_hinted (call : Call) (s : SinkBase) (t : Msg)
    (flags : WriteFlags) (ser : Msg → Msg) (hmeta : s.send_metadata = true) :
    ((SinkBase.start_send call s t flags ser).ops.all NativeOp.bufferHintClear) = true := by
  have hclear : ∀ fl : Nat, (fl &&& (U32_MASK ^^^ GRPC_WRITE_BUFFER_HINT))
      &&& GRPC_WRITE_BUFFER_HINT = 0 := by
    intro fl
    show (fl &&& 4294967294) &&& 1 = 0
    rw [Nat.and_assoc]
    norm_num
  have hflags : ∀ b : Bool, b = true →
      ((if flags.get_buffer_hint = true ∧ b = true then flags.buffer_hint false
        else flags).flags &&& GRPC_WRITE_BUFFER_HINT) = 0 := by
    intro b h1
    subst h1
    by_cases hbh : flags.get_buffer_hint = true
    · rw [if_pos ⟨hbh, rfl⟩]
      simpa [WriteFlags.buffer_hint, client.change_flag] using hclear flags.flags
    · rw [if_neg (by tauto)]
      simpa [WriteFlags.get_buffer_hint] using hbh
  rcases hb : s.batch_f with _ | f
  · cases hcq : call.cq.shutdownStarted <;>
      simp [SinkBase.start_send, SinkBase.poll_complete, innerPoll,
            Call.start_send_message, CompletionQueue.borrow, hb, hcq,
            NativeOp.bufferHintClear] <;>
      exact hflags _ hmeta
  · cases f with
    | pending =>
      simp [SinkBase.start_send, SinkBase.poll_complete, innerPoll, hb]
    | consumed =>
      simp [SinkBase.start_send, SinkBase.poll_complete, innerPoll, hb]
    | ready r =>
      cases r with
      | ok a =>
        cases hcq : call.cq.shutdownStarted <;>
          simp [SinkBase.start_send, SinkBase.poll_complete, innerPoll,
                Call.start_send_message, CompletionQueue.borrow, hb, hcq,
                NativeOp.bufferHintClear] <;>
          exact hflags _ hmeta
      | error e =>
        simp [SinkBase.start_send, SinkBase.poll_complete, innerPoll, hb]

/-- Claim C10, witness: a concrete first send with the buffer hint set by
the caller still goes out with the hint cleared. -/
theorem first_send_never_buffer_hinted_witness :
    ((SinkBase.start_send ⟨⟨false⟩⟩ (SinkBase.new true) [1] ⟨1⟩ id).ops.all
      NativeOp.bufferHintClear) = true :=
  first_send_never_buffer_hinted ⟨⟨false⟩⟩ (SinkBase.new true) [1] ⟨1⟩ id rfl

/-- The executor invariant holds in the initial state. -/
theorem execInv_init : ExecInv ⟨TaskState.idle, 0, 0⟩ := by
  simp [ExecInv]

/-- Every executor transition preserves the invariant. -/
theorem execInv_step {s t : ExecState} (hs : ExecInv s) (h : ExecStep s t) : ExecInv t := by
  obtain ⟨h1, h2, h3, h4, h5, h6⟩ := hs
  cases h with
  | wakeup =>
    cases htask : s.task with
    | idle =>
      obtain ⟨ha, hsch⟩ := h5 htask
      simp [notifyStep, SpawnTask.mark_notified, htask, ExecInv, ha, hsch]
    | polling =>
      have ha := h4 htask
      have hsch : s.scheduled = 0 := by
        by_contra hne
        obtain ⟨-, hnot⟩ := h3 (by omega)
        simp [htask] at hnot
      simp [notifyStep, SpawnTask.mark_notified, htask, ExecInv, ha, hsch]
    | notified =>
      simp only [notifyStep, SpawnTask.mark_notified, htask, ExecInv]
      simp_all [htask]
    | completed =>
      simp only [notifyStep, SpawnTask.mark_notified, htask, ExecInv]
      simp_all [htask]
  | spawnPoll htask ha =>
    obtain ⟨-, hsch⟩ := h5 htask
    simp [ExecInv, ha, hsch]
  | beginScheduled hsch htask =>
    obtain ⟨ha, -⟩ := h3 (by omega)
    simp [ExecInv, ha]
    omega
  | dropScheduled hsch htask =>
    obtain ⟨-, hnot⟩ := h3 (by omega)
    simp [htask] at hnot
  | finishReady htask ha =>
    have h4s := h4 htask
    have hsch : s.scheduled = 0 := by
      by_contra hne
      obtain ⟨-, hnot⟩ := h3 (by omega)
      simp [htask] at hnot
    simp [ExecInv, h4s, hsch]
  | finishNotReady htask ha =>
    have h4s := h4 htask
    have hsch : s.scheduled = 0 := by
      by_contra hne
      obtain ⟨-, hnot⟩ := h3 (by omega)
      simp [htask] at hnot
    simp [ExecInv, h4s, hsch]
  | observeNotifiedRepoll htask ha =>
    have hsch : s.scheduled = 0 := by
      by_contra hne
      obtain ⟨hz, -⟩ := h3 (by omega)
      omega
    simp [ExecInv, hsch]
    omega

/-- The executor invariant holds in every reachable state. -/
theorem execInv_reachable {s : ExecState} (h : ExecReachable s) : ExecInv s := by
  induction h with
  | init => exact execInv_init
  | step _ hstep ih => exact execInv_step ih hstep

/-- Claim C6: in every reachable executor state at most one poll of the
spawned future is active; and a wakeup that arrives while the task is
Polling flips the state to Notified without scheduling another poll
(mark_notified reports false and the count of deferred polls is unchanged),
after which the in-progress poll loop itself may re-poll the future — a
legal transition that starts no second poll loop and consumes no scheduled
entry. -/
theorem executor_single_active_poll (s : ExecState) (h : ExecReachable s) :
    s.activePolls ≤ 1 ∧
    (s.task = TaskState.polling →
      SpawnTask.mark_notified s.task = (false, TaskState.notified) ∧
      (notifyStep s).task = TaskState.notified ∧
      (notifyStep s).scheduled = s.scheduled ∧
      (notifyStep s).activePolls = s.activePolls ∧
      ExecStep (notifyStep s) { notifyStep s with task := TaskState.polling }) := by
  obtain ⟨h1, h2, h3, h4, h5, h6⟩ := execInv_reachable h
  refine ⟨h1, fun htask => ?_⟩
  have ha := h4 htask
  refine ⟨by rw [htask]; rfl, by simp [notifyStep, htask, SpawnTask.mark_notified],
    by simp [notifyStep, htask, SpawnTask.mark_notified],
    by simp [notifyStep, htask, SpawnTask.mark_notified], ?_⟩
  exact ExecStep.observeNotifiedRepoll (notifyStep s)
    (by simp [notifyStep, htask, SpawnTask.mark_notified])
    (by simp [notifyStep, htask, SpawnTask.mark_notified]; omega)

/-- Claim C6, witness: the single-active-poll property at the concrete
reachable state entered by the inline poll at spawn time. -/
theorem executor_single_active_poll_witness :
    (⟨TaskState.polling, 1, 0⟩ : ExecState).activePolls ≤ 1 ∧
    ((⟨TaskState.polling, 1, 0⟩ : ExecState).task = TaskState.polling →
      SpawnTask.mark_notified (⟨TaskState.polling, 1, 0⟩ : ExecState).task
        = (false, TaskState.notified) ∧
      (notifyStep ⟨TaskState.polling, 1, 0⟩).task = TaskState.notified ∧
      (notifyStep ⟨TaskState.polling, 1, 0⟩).scheduled
        = (⟨TaskState.polling, 1, 0⟩ : ExecState).scheduled ∧
      (notifyStep ⟨TaskState.polling, 1, 0⟩).activePolls
        = (⟨TaskState.polling, 1, 0⟩ : ExecState).activePolls ∧
      ExecStep (notifyStep ⟨TaskState.polling, 1, 0⟩)
        { notifyStep ⟨TaskState.polling, 1, 0⟩ with task := TaskState.polling }) :=
  executor_single_active_poll ⟨TaskState.polling, 1, 0⟩
    (ExecReachable.step ExecReachable.init (ExecStep.spawnPoll _ rfl rfl))

/-- The previously buffered write, if any, has completed: there is no
in-flight write future, or polling it yields ready. -/
def writeCompleted (o : Option (PromiseState BatchMessage)) : Prop :=
  match o with
  | none => True
  | some f => ∃ r, (innerPoll f).1 = Except.ok (Poll.ready r)

/-- The final wait of close passes the operations and sink through and
marks that the terminal-close future was polled. -/
theorem finishCheck_shape (c : ShareCall) (ss : StreamSink) (ops : List NativeOp) :
    (StreamSink.finishCheck c ss ops).ops = ops ∧
    (StreamSink.finishCheck c ss ops).sink = ss ∧
    (StreamSink.finishCheck c ss ops).polledFinish = true := by
  rcases hpf : c.poll_finish with ⟨r, c'⟩
  rcases r with e | p
  · simp [StreamSink.finishCheck, hpf]
  · cases p <;> simp [StreamSink.finishCheck, hpf]

/-- Claim C4: close is a strict two-phase barrier. The terminal send-status
operation is issued only when there is no terminal operation yet and every
previously buffered write has completed; while a buffered write is still
outstanding, close issues nothing and does not advance. After issuing the
terminal operation, close never reaches the wait on the call's
terminal-close future in the same step (the fresh operation is still
pending), and it reaches that wait only once the terminal operation has
resolved (flushed). The hypothesis is the state invariant that `flushed`
is only ever set while the terminal-operation future exists. -/
theorem close_flush_before_terminate (c : ShareCall) (ss : StreamSink)
    (hwf : ss.flushed = true → ss.flush_f.isSome = true) :
    ((∃ op ∈ (StreamSink.close c ss).ops, op.isSendStatus = true) →
       ss.flush_f = none ∧ writeCompleted ss.base.batch_f) ∧
    (ss.flush_f = none → ¬writeCompleted ss.base.batch_f →
       (StreamSink.close c ss).ops = [] ∧
       (StreamSink.close c ss).polledFinish = false ∧
       (StreamSink.close c ss).sink.flush_f = none) ∧
    ((StreamSink.close c ss).polledFinish = true →
       (StreamSink.close c ss).sink.flushed = true) ∧
    ((StreamSink.close c ss).polledFinish = true →
       ss.flushed = true ∨
         ∃ f r, ss.flush_f = some f ∧ (innerPoll f).1 = Except.ok (Poll.ready r)) ∧
    ((∃ op ∈ (StreamSink.close c ss).ops, op.isSendStatus = true) →
       (StreamSink.close c ss).polledFinish = false) := by
  rcases hss : ss.flush_f with _ | f
  · -- no terminal operation yet: close starts with the write drain
    have hfl : ss.flushed = false := by
      cases hflc : ss.flushed
      · rfl
      · have := hwf hflc
        rw [hss] at this
        simp at this
    rcases hb : ss.base.batch_f with _ | f
    · -- no outstanding write: the drain reports ready at once
      cases hcq : c.call.cq.shutdownStarted
      · simp [StreamSink.close, SinkBase.poll_complete, hss, hb,
              Call.start_send_status_from_server, CompletionQueue.borrow, hcq,
              StreamSink.closeRest, hfl, innerPoll, NativeOp.isSendStatus, writeCompleted]
      · simp [StreamSink.close, SinkBase.poll_complete, hss, hb,
              Call.start_send_status_from_server, CompletionQueue.borrow, hcq,
              NativeOp.isSendStatus, writeCompleted]
    · cases f with
      | pending =>
        simp [StreamSink.close, SinkBase.poll_complete, hss, hb, innerPoll,
              writeCompleted]
      | consumed =>
        simp [StreamSink.close, SinkBase.poll_complete, hss, hb, innerPoll,
              writeCompleted]
      | ready r =>
        cases r with
        | ok a =>
          cases hcq : c.call.cq.shutdownStarted
          · simp [StreamSink.close, SinkBase.poll_complete, hss, hb,
                  Call.start_send_status_from_server, CompletionQueue.borrow, hcq,
                  StreamSink.closeRest, hfl, innerPoll, NativeOp.isSendStatus,
                  writeCompleted]
          · simp [StreamSink.close, SinkBase.poll_complete, hss, hb,
                  Call.start_send_status_from_server, CompletionQueue.borrow, hcq,
                  NativeOp.isSendStatus, writeCompleted, innerPoll]
        | error e =>
          simp [StreamSink.close, SinkBase.poll_complete, hss, hb, innerPoll,
                writeCompleted]
  · -- the terminal operation exists already: no further operation is issued
    cases hfl : ss.flushed
    · cases f with
      | pending =>
        simp [StreamSink.close, hss, StreamSink.closeRest, hfl, innerPoll]
      | consumed =>
        simp [StreamSink.close, hss, StreamSink.closeRest, hfl, innerPoll]
      | ready r =>
        cases r with
        | ok a =>
          obtain ⟨hops, hsink, hpolled⟩ :=
            finishCheck_shape c { ss with flush_f := some PromiseState.consumed,
                                          flushed := true } []
          simp [StreamSink.close, hss, StreamSink.closeRest, hfl, innerPoll,
                hops, hsink, hpolled]
        | error e =>
          simp [StreamSink.close, hss, StreamSink.closeRest, hfl, innerPoll]
    · obtain ⟨hops, hsink, hpolled⟩ := finishCheck_shape c ss []
      simp [StreamSink.close, hss, StreamSink.closeRest, hfl, hops, hsink, hpolled,
            hfl]

/-- Claim C4, witness: the two-phase barrier at a concrete sink that has no
terminal operation yet and no outstanding write. -/
theorem close_flush_before_terminate_witness :
    ((∃ op ∈ (StreamSink.close ⟨⟨⟨false⟩⟩, PromiseState.pending, false, none⟩
          ⟨SinkBase.new true, none, RpcStatus.ok, false⟩).ops, op.isSendStatus = true) →
       (⟨SinkBase.new true, none, RpcStatus.ok, false⟩ : StreamSink).flush_f = none ∧
       writeCompleted (⟨SinkBase.new true, none, RpcStatus.ok, false⟩ : StreamSink).base.batch_f) ∧
    ((⟨SinkBase.new true, none, RpcStatus.ok, false⟩ : StreamSink).flush_f = none →
       ¬writeCompleted (⟨SinkBase.new true, none, RpcStatus.ok, false⟩ : StreamSink).base.batch_f →
       (StreamSink.close ⟨⟨⟨false⟩⟩, PromiseState.pending, false, none⟩
          ⟨SinkBase.new true, none, RpcStatus.ok, false⟩).ops = [] ∧
       (StreamSink.close ⟨⟨⟨false⟩⟩, PromiseState.pending, false, none⟩
          ⟨SinkBase.new true, none, RpcStatus.ok, false⟩).polledFinish = false ∧
       (StreamSink.close ⟨⟨⟨false⟩⟩, PromiseState.pending, false, none⟩
          ⟨SinkBase.new true, none, RpcStatus.ok, false⟩).sink.flush_f = none) ∧
    ((StreamSink.close ⟨⟨⟨false⟩⟩, PromiseState.pending, false, none⟩
        ⟨SinkBase.new true, none, RpcStatus.ok, false⟩).polledFinish = true →
       (StreamSink.close ⟨⟨⟨false⟩⟩, PromiseState.pending, false, none⟩
          ⟨SinkBase.new true, none, RpcStatus.ok, false⟩).sink.flushed = true) ∧
    ((StreamSink.close ⟨⟨⟨false⟩⟩, PromiseState.pending, false, none⟩
        ⟨SinkBase.new true, none, RpcStatus.ok, false⟩).polledFinish = true →
       (⟨SinkBase.new true, none, RpcStatus.ok, false⟩ : StreamSink).flushed = true ∨
         ∃ f r, (⟨SinkBase.new true, none, RpcStatus.ok, false⟩ : StreamSink).flush_f = some f ∧
           (innerPoll f).1 = Except.ok (Poll.ready r)) ∧
    ((∃ op ∈ (StreamSink.close ⟨⟨⟨false⟩⟩, PromiseState.pending, false, none⟩
          ⟨SinkBase.new true, none, RpcStatus.ok, false⟩).ops, op.isSendStatus = true) →
       (StreamSink.close ⟨⟨⟨false⟩⟩, PromiseState.pending, false, none⟩
          ⟨SinkBase.new true, none, RpcStatus.ok, false⟩).polledFinish = false) :=
  close_flush_before_terminate ⟨⟨⟨false⟩⟩, PromiseState.pending, false, none⟩
    ⟨SinkBase.new true, none, RpcStatus.ok, false⟩ (by simp)

/-- A call bound to an open completion queue. -/
def openCall : Call := ⟨⟨false⟩⟩

/-- Drive the read stream: poll repeatedly (as a consumer does), collecting
each surfaced message, and stop at end-of-stream. Fuel bounds the number of
polls. -/
def streamRun (call : Call) : Nat → StreamingBase → RecvEnv → List (Option Msg)
  | 0, _, _ => []
  | fuel + 1, b, env =>
    let out := StreamingBase.poll call b env false
    match out.res with
    | Except.ok (Poll.ready (some m)) => some m :: streamRun call fuel out.base out.env
    | Except.ok (Poll.ready none) => [none]
    | _ => []

/-- The first delivery a receive operation will see, for a remaining
message list: the next message, or end-of-stream when none remain. -/
def headDelivery : List Msg → Option Msg
  | [] => none
  | m :: _ => some m

/-- The deliveries after the first one, for a remaining message list. -/
def tailDeliveries : List Msg → RecvEnv
  | [] => []
  | _ :: r => r.map some ++ [none]

/-- pollFlight signals end-of-stream (Ready none) only when reading is
done and the terminal-close future is gone. -/
theorem pollFlight_eos_state (call : Call) (b : StreamingBase)
    (f : PromiseState BatchMessage) (env : RecvEnv) :
    (StreamingBase.pollFlight call b f env).res = Except.ok (Poll.ready none) →
    (StreamingBase.pollFlight call b f env).base.read_done = true ∧
    (StreamingBase.pollFlight call b f env).base.close_f = none := by
  cases hrd : b.read_done
  · cases f with
    | pending => simp [StreamingBase.pollFlight, hrd, innerPoll]
    | consumed => simp [StreamingBase.pollFlight, hrd, innerPoll]
    | ready r =>
      cases r with
      | error e => simp [StreamingBase.pollFlight, hrd, innerPoll]
      | ok bytes =>
        cases bytes with
        | none =>
          rcases hcf : b.close_f with _ | c <;>
            simp [StreamingBase.pollFlight, hrd, innerPoll, hcf]
        | some m =>
          rcases hir : issueRecv call env with e | ⟨nf, env', op⟩ <;>
            simp [StreamingBase.pollFlight, hrd, innerPoll, hir]
  · rcases hcf : b.close_f with _ | c <;>
      simp [StreamingBase.pollFlight, hrd, hcf]

/-- pollMsg signals end-of-stream (Ready none) only when reading is done
and the terminal-close future is gone. -/
theorem pollMsg_eos_state (call : Call) (b : StreamingBase) (env : RecvEnv) :
    (StreamingBase.pollMsg call b env).res = Except.ok (Poll.ready none) →
    (StreamingBase.pollMsg call b env).base.read_done = true ∧
    (StreamingBase.pollMsg call b env).base.close_f = none := by
  rcases hm : b.msg_f with _ | f
  · cases hrd : b.read_done
    · rcases hir : issueRecv call env with e | ⟨nf, env', op⟩
      · simp [StreamingBase.pollMsg, hm, hrd, hir]
      · have h := pollFlight_eos_state call { b with msg_f := some nf } nf env'
        simp only [StreamingBase.pollMsg, hm, hrd, hir]
        simpa [hrd] using h
    · rcases hcf : b.close_f with _ | c <;>
        simp [StreamingBase.pollMsg, hm, hrd, hcf]
  · simpa [StreamingBase.pollMsg, hm] using pollFlight_eos_state call b f env

/-- The read stream signals final completion (Ready none) only in a state
where reading is done and the terminal-close future has resolved (or never
existed): end-of-stream is reported only after both read-done and
close-resolution. -/
theorem poll_eos_state (call : Call) (b : StreamingBase) (env : RecvEnv)
    (skip : Bool) :
    (StreamingBase.poll call b env skip).res = Except.ok (Poll.ready none) →
    (StreamingBase.poll call b env skip).base.read_done = true ∧
    (StreamingBase.poll call b env skip).base.close_f = none := by
  cases skip
  · rcases hcf : b.close_f with _ | cf
    · simpa [StreamingBase.poll, hcf] using pollMsg_eos_state call b env
    · rcases hip : innerPoll cf with ⟨r, cf'⟩
      rcases r with e | p
      · simp [StreamingBase.poll, hcf, hip]
      · cases p
        · simpa [StreamingBase.poll, hcf, hip] using
            pollMsg_eos_state call { b with close_f := some cf' } env
        · simpa [StreamingBase.poll, hcf, hip] using
            pollMsg_eos_state call { b with close_f := none } env
  · simpa [StreamingBase.poll] using pollMsg_eos_state call b env

/-- One driver step that surfaces a message continues with the updated
state. -/
theorem streamRun_cons (call : Call) (fuel : Nat) (b : StreamingBase) (env : RecvEnv)
    (m : Msg) (b' : StreamingBase) (env' : RecvEnv) (ops : List NativeOp)
    (h : StreamingBase.poll call b env false
       = ⟨Except.ok (Poll.ready (some m)), b', env', ops⟩) :
    streamRun call (fuel + 1) b env = some m :: streamRun call fuel b' env' := by
  simp [streamRun, h]

/-- With the close future already resolved and the deliveries for the
remaining messages buffered, the driver yields exactly those messages in
order followed by end-of-stream. This is the steady state after the first
receive is in flight. -/
theorem streamRun_steady (l : List Msg) :
    streamRun openCall (l.length + 1)
      ⟨none, some (PromiseState.ready (Except.ok (headDelivery l))), false⟩
      (tailDeliveries l)
      = l.map some ++ [none] := by
  induction l with
  | nil => rfl
  | cons m r ih =>
    have h1 : StreamingBase.poll openCall
        ⟨none, some (PromiseState.ready (Except.ok (some m))), false⟩
        (tailDeliveries (m :: r)) false
        = ⟨Except.ok (Poll.ready (some m)),
           ⟨none, some (PromiseState.ready (Except.ok (headDelivery r))), false⟩,
           tailDeliveries r, [NativeOp.recvMessage]⟩ := by
      cases r <;> rfl
    show streamRun openCall (r.length + 1 + 1)
        ⟨none, some (PromiseState.ready (Except.ok (some m))), false⟩
        (tailDeliveries (m :: r))
        = some m :: (r.map some ++ [none])
    rw [streamRun_cons openCall (r.length + 1) _ _ m _ _ _ h1, ih]

/-- Claim C5: for N messages sent before half-close, with the call's
terminal-close future resolved before any of them is drained, the read
stream still yields exactly those N messages in send order followed by
end-of-stream — it does not stop early; and (second conjunct) the stream
signals final completion only in a state where both read-done and
close-resolution have occurred. -/
theorem stream_yields_messages_in_order_then_eos (msgs : List Msg) :
    streamRun openCall (msgs.length + 1)
      ⟨some (PromiseState.ready (Except.ok none)), none, false⟩
      (msgs.map some ++ [none])
      = msgs.map some ++ [none] ∧
    ∀ (b : StreamingBase) (env : RecvEnv) (skip : Bool),
      (StreamingBase.poll openCall b env skip).res = Except.ok (Poll.ready none) →
      (StreamingBase.poll openCall b env skip).base.read_done = true ∧
      (StreamingBase.poll openCall b env skip).base.close_f = none := by
  refine ⟨?_, fun b env skip => poll_eos_state openCall b env skip⟩
  cases msgs with
  | nil => rfl
  | cons m r =>
    have h1 : StreamingBase.poll openCall
        ⟨some (PromiseState.ready (Except.ok none)), none, false⟩
        ((m :: r).map some ++ [none]) false
        = ⟨Except.ok (Poll.ready (some m)),
           ⟨none, some (PromiseState.ready (Except.ok (headDelivery r))), false⟩,
           tailDeliveries r, [NativeOp.recvMessage, NativeOp.recvMessage]⟩ := by
      cases r <;> rfl
    show streamRun openCall (r.length + 1 + 1)
        ⟨some (PromiseState.ready (Except.ok none)), none, false⟩
        ((m :: r).map some ++ [none])
        = some m :: (r.map some ++ [none])
    rw [streamRun_cons openCall (r.length + 1) _ _ m _ _ _ h1, streamRun_steady r]

end GrpcRs
